import Mathlib

/-!
# Verification of the ChessBot library store

A shallow embedding of the entity store of the ChessBot Discord bot
(`src/library.rs`, `src/utils.rs`, `src/main.rs`) together with proofs of
the specification claims about it.

Modelling conventions:
* Rust `u32` identifiers become `Nat`; no arithmetic is performed on them in
  the source, so no wraparound modelling is needed (bounds appear as explicit
  hypotheses where relevant, e.g. `id < 2^32`).
* Rust `String` values become `Bytes := List Nat`, the list of UTF-8 bytes;
  the comparator in `utils.rs` works byte-wise (`a.bytes()`), so this is the
  natural granularity.
* `indexmap::IndexMap<u32, V>` becomes an association list `List (Nat × V)`
  in insertion order.  `insert` on an absent key appends at the end and
  `remove` has `swap_remove` semantics (the last entry is swapped into the
  removed slot), matching the `indexmap` crate used by the source.
* `chrono::DateTime<Local>` (`TimeType`) becomes `Int` (a timestamp in
  seconds); only `now + loan period` arithmetic touches it.
* Randomness (`rand::thread_rng().gen::<u32>()`) is modelled by threading an
  explicit list of draws; the retry loop of `new_raw_uuid` consumes the list
  and returns `none` if it is exhausted.
* Fallible IO (`Database::load`) is modelled by passing the read result and
  the deserializer explicitly; a Rust panic (`unwrap`, `unreachable!`)
  becomes the `none` case of an outer `Option`.
-/

namespace ChessBot

/-- A Rust `String`/`&str`, viewed as its UTF-8 bytes (`str::bytes`). -/
abbrev Bytes := List Nat

/-! ## `utils.rs` -/

/-- `u8::to_ascii_lowercase`: maps `A`..`Z` (65..90) to `a`..`z`, identity
elsewhere. -/
def to_ascii_lowercase (c : Nat) : Nat :=
  if 65 ≤ c ∧ c ≤ 90 then c + 32 else c

/-- `utils::cmp_ignore_case_ascii`: zips the two byte strings with
`zip_longest`; an unmatched byte on either side yields a non-`Equal`
ordering, a matched pair yields `Equal` iff both are the space byte or the
ASCII-lowercased bytes are equal; the result is `true` iff no non-`Equal`
ordering occurs. -/
def cmp_ignore_case_ascii : Bytes → Bytes → Bool
  | [], [] => true
  | _ :: _, [] => false
  | [], _ :: _ => false
  | a :: as_, b :: bs =>
    (if a == 32 && b == 32 then true
     else to_ascii_lowercase a == to_ascii_lowercase b)
    && cmp_ignore_case_ascii as_ bs

/-! ## Data model (`library.rs`) -/

/-- `TimeType = chrono::DateTime<Local>`, modelled as a timestamp. -/
abbrev TimeType := Int

/-- `library::Book`. -/
structure Book where
  uuid : Nat
  name : Bytes
  author : Bytes
  quantity : Nat
deriving DecidableEq, Repr

/-- `library::CheckoutStatus`: the four stages of a handout. -/
inductive CheckoutStatus where
  | PreTransact
  | Reading
  | ReturnVerifyNeeded
  | DONE
deriving DecidableEq, Repr

/-- `library::OfficerApproval`. -/
structure OfficerApproval where
  user : Nat
  time : TimeType
deriving DecidableEq, Repr

/-- `library::CheckoutInstance`. -/
structure CheckoutInstance where
  uuid : Nat
  rentee : Nat
  book : Nat
  status : CheckoutStatus
  due_date : Option TimeType
  checkout_approval : Option OfficerApproval
  checkin_approval : Option OfficerApproval
deriving DecidableEq, Repr

/-- `library::User`. -/
structure User where
  discord_id : Bytes
  read_name : Bytes
  uuid : Nat
deriving DecidableEq, Repr

/-- `library::Database`: three insertion-ordered maps keyed by identifier. -/
structure Database where
  books : List (Nat × Book)
  checkouts : List (Nat × CheckoutInstance)
  users : List (Nat × User)
deriving DecidableEq, Repr

/-- `library::ManipulationErrorType` (the Rust `ManipulationError` newtype
wrapper adds nothing and is collapsed). -/
inductive ManipulationError where
  | OutstandingBooksNonReturned : List Nat → ManipulationError
  | UnknownBook : Bytes → ManipulationError
  | AlreadyAdded : Bytes → ManipulationError
deriving DecidableEq, Repr

/-- `library::UuidError`. -/
inductive UuidError where
  | InvalidEncoding
  | NotFound
  | MismatchIsUserUuid
  | MismatchIsBookUuid
  | MismatchIsCheckoutUuid
deriving DecidableEq, Repr

/-- `library::UuidType`. -/
inductive UuidType where
  | User
  | Book
  | Checkout
deriving DecidableEq, Repr

/-! ## `IndexMap` operations -/

/-- `IndexMap::contains_key`. -/
def containsKey {α : Type} (m : List (Nat × α)) (k : Nat) : Bool :=
  m.any (fun p => p.1 == k)

/-- `IndexMap::get`: the value of the (unique) entry with key `k`. -/
def getKey? {α : Type} (m : List (Nat × α)) (k : Nat) : Option α :=
  (m.find? (fun p => p.1 == k)).map (fun p => p.2)

/-- `IndexMap::insert`: replaces in place when the key is present, otherwise
appends the new entry at the end (insertion order). -/
def imInsert {α : Type} (m : List (Nat × α)) (k : Nat) (v : α) :
    List (Nat × α) :=
  if m.any (fun p => p.1 == k) then
    m.map (fun p => if p.1 == k then (k, v) else p)
  else m ++ [(k, v)]

/-- `IndexMap::remove` = `swap_remove`: the removed entry's slot is filled by
the map's last entry.  Recursive formulation: removing the head of `x :: xs`
moves the last entry of `xs` to the front. -/
def imSwapRemove {α : Type} : List (Nat × α) → Nat → Option α × List (Nat × α)
  | [], _ => (none, [])
  | x :: xs, k =>
    if x.1 == k then
      match xs.getLast? with
      | none => (some x.2, [])
      | some last => (some x.2, last :: xs.dropLast)
    else
      ((imSwapRemove xs k).1, x :: (imSwapRemove xs k).2)

/-- The store-wide invariant of §3: no identifier is simultaneously a key of
more than one of the three maps. -/
def mutualUnique (db : Database) : Bool :=
  db.books.all (fun p =>
    !containsKey db.users p.1 && !containsKey db.checkouts p.1)
  && db.users.all (fun p => !containsKey db.checkouts p.1)

/-- Key coherence: every entry of the books map stores a book whose `uuid`
field equals its key.  The source maintains this because the only insertion,
`add_book`, uses `self.books.insert(book.uuid, book)`. -/
def booksKeyCoherent (db : Database) : Prop :=
  ∀ p ∈ db.books, p.2.uuid = p.1

/-! ## Identifier codec (`library.rs`) -/

/-- The RFC 4648 base-32 alphabet `A`..`Z`, `2`..`7` as bytes, used by
`data_encoding::BASE32_NOPAD`. -/
def base32_alphabet : List Nat :=
  [65, 66, 67, 68, 69, 70, 71, 72, 73, 74, 75, 76, 77, 78, 79, 80,
   81, 82, 83, 84, 85, 86, 87, 88, 89, 90, 50, 51, 52, 53, 54, 55]

/-- `Database::encode_uuid`: `BASE32_NOPAD.encode` of the 4 big-endian bytes
of the identifier.  The 32 data bits followed by 3 zero bits form 7 five-bit
symbols, most significant first. -/
def encode_uuid (uuid : Nat) : Bytes :=
  (List.range 7).map (fun k =>
    base32_alphabet.getD (uuid * 8 / 2 ^ (5 * (6 - k)) % 32) 0)

/-- The pure text-level part of `Database::decode_raw`:
`BASE32_NOPAD.decode_len` accepts only a length that denotes exactly 4 bytes
(length 7), `decode_mut` requires every byte to be an alphabet symbol and the
3 trailing bits of the last symbol to be zero, and the 4 decoded bytes are
read back big-endian (`u32::from_be_bytes`). -/
def b32_decode4 (s : Bytes) : Option Nat :=
  if s.length = 7 then
    match s.mapM (fun b => base32_alphabet.findIdx? (fun a => a == b)) with
    | none => none
    | some ds =>
      let v := ds.foldl (fun acc d => acc * 32 + d) 0
      if v % 8 = 0 then some (v / 8) else none
  else none

/-- `Database::decode_raw`: decode the text, then classify the value by
probing the users, books and checkouts maps in that order. -/
def decode_raw (db : Database) (s : Bytes) : Except UuidError (Nat × UuidType) :=
  match b32_decode4 s with
  | none => .error .InvalidEncoding
  | some result =>
    if containsKey db.users result then .ok (result, .User)
    else if containsKey db.books result then .ok (result, .Book)
    else if containsKey db.checkouts result then .ok (result, .Checkout)
    else .error .NotFound

/-- `Database::uuid_type_to_mismatch_error`. -/
def uuid_type_to_mismatch_error : UuidType → UuidError
  | .User => .MismatchIsUserUuid
  | .Book => .MismatchIsBookUuid
  | .Checkout => .MismatchIsCheckoutUuid

/-- `Database::decode_user_uuid`. -/
def decode_user_uuid (db : Database) (s : Bytes) : Except UuidError Nat :=
  match decode_raw db s with
  | .error e => .error e
  | .ok (decoded, t) =>
    if t ≠ UuidType.User then .error (uuid_type_to_mismatch_error t)
    else .ok decoded

/-- `Database::decode_book_uuid`. -/
def decode_book_uuid (db : Database) (s : Bytes) : Except UuidError Nat :=
  match decode_raw db s with
  | .error e => .error e
  | .ok (decoded, t) =>
    if t ≠ UuidType.Book then .error (uuid_type_to_mismatch_error t)
    else .ok decoded

/-- `Database::decode_checkout_uuid`. -/
def decode_checkout_uuid (db : Database) (s : Bytes) : Except UuidError Nat :=
  match decode_raw db s with
  | .error e => .error e
  | .ok (decoded, t) =>
    if t ≠ UuidType.Checkout then .error (uuid_type_to_mismatch_error t)
    else .ok decoded

/-! ## Store operations (`library.rs`) -/

/-- `Database::new`. -/
def Database.newEmpty : Database := ⟨[], [], []⟩

/-- `Database::add_book`: reject a duplicate identifier (payload: its encoded
text), then a duplicate (title, author) pair under the comparator (payload:
the new book's name), otherwise insert.  Returns the post-state and the
result. -/
def add_book (db : Database) (book : Book) :
    Database × Except ManipulationError Unit :=
  if containsKey db.books book.uuid then
    (db, .error (.AlreadyAdded (encode_uuid book.uuid)))
  else if db.books.any (fun p =>
      cmp_ignore_case_ascii p.2.name book.name
      && cmp_ignore_case_ascii p.2.author book.author) then
    (db, .error (.AlreadyAdded book.name))
  else
    ({ db with books := imInsert db.books book.uuid book }, .ok ())

/-- `Database::remove_book`: if any checkout references the book (the status
field is never consulted), fail with the uuids of all referencing checkouts;
otherwise remove the book from the map, failing when it is absent. -/
def remove_book (db : Database) (uuid : Nat) :
    Database × Except ManipulationError Book :=
  if db.checkouts.any (fun p => p.2.book == uuid) then
    (db, .error (.OutstandingBooksNonReturned
      ((db.checkouts.filter (fun p => p.2.book == uuid)).map
        (fun p => p.2.uuid))))
  else
    match imSwapRemove db.books uuid with
    | (none, _) => (db, .error (.UnknownBook (encode_uuid uuid)))
    | (some book, books2) => ({ db with books := books2 }, .ok book)

/-- `Database::new_raw_uuid`: draw random `u32` values until one is found
that is at least `2^27` (so its base-32 form needs no padding) and is a key
of none of the three maps.  The random source is an explicit list of draws;
`none` means the list was exhausted. -/
def new_raw_uuid (db : Database) : List Nat → Option Nat
  | [] => none
  | r :: rest =>
    let uuid := r % 2 ^ 32
    if uuid < 2 ^ 27 then new_raw_uuid db rest
    else if !containsKey db.users uuid && !containsKey db.books uuid
        && !containsKey db.checkouts uuid then
      some uuid
    else new_raw_uuid db rest

/-- `Database::new_book_uuid`. -/
def new_book_uuid (db : Database) (rands : List Nat) : Option Nat :=
  new_raw_uuid db rands

/-- `Database::new_user_uuid`. -/
def new_user_uuid (db : Database) (rands : List Nat) : Option Nat :=
  new_raw_uuid db rands

/-- `Database::new_checkout_uuid`. -/
def new_checkout_uuid (db : Database) (rands : List Nat) : Option Nat :=
  new_raw_uuid db rands

/-- `Database::get_book_from_input`: try to decode the input as a book
identifier; on any decode error fall back to a linear scan matching the
input against book names with the comparator, taking the first hit.  The
resolved identifier is then looked up; the source's `unreachable!()` on a
failed lookup is the outer `none`. -/
def get_book_from_input (db : Database) (input : Bytes) :
    Option (Option Book) :=
  let book_opt_uuid : Option Nat :=
    match decode_book_uuid db input with
    | .ok uuid => some uuid
    | .error _ =>
      match db.books.find? (fun p => cmp_ignore_case_ascii p.2.name input) with
      | some p => some p.2.uuid
      | none => none
  match book_opt_uuid with
  | some book_uuid =>
    match getKey? db.books book_uuid with
    | some book => some (some book)
    | none => none
  | none => some none

/-- `Database::get_book_from_input_mut`: identical resolution logic to
`get_book_from_input` (the Rust functions differ only in the mutability of
the returned reference); its `unreachable!()` is likewise the outer
`none`. -/
def get_book_from_input_mut (db : Database) (input : Bytes) :
    Option (Option Book) :=
  let book_opt_uuid : Option Nat :=
    match decode_book_uuid db input with
    | .ok uuid => some uuid
    | .error _ =>
      match db.books.find? (fun p => cmp_ignore_case_ascii p.2.name input) with
      | some p => some p.2.uuid
      | none => none
  match book_opt_uuid with
  | some book_uuid =>
    match getKey? db.books book_uuid with
    | some book => some (some book)
    | none => none
  | none => some none

/-! ## Persistence (`Database::load`, `main::init`) -/

/-- `Database::load`: the file read result is passed explicitly (`none` for
a read failure) and so is the `bincode` deserializer.  A read failure yields
"no prior state" (`some none`); a deserialization failure panics
(`result.unwrap()`), the outer `none`; success yields the database. -/
def load (readResult : Option Bytes) (deserialize : Bytes → Option Database) :
    Option (Option Database) :=
  match readResult with
  | none => some none
  | some data =>
    match deserialize data with
    | none => none
    | some db => some (some db)

/-- The tail of `main::init`: use the loaded database when there is one,
otherwise start from `Database::new()`. -/
def init_database (prev : Option Database) : Database :=
  match prev with
  | some lib => lib
  | none => Database.newEmpty

/-! ## Helper lemmas about the map operations -/

theorem containsKey_iff {α : Type} (m : List (Nat × α)) (k : Nat) :
    containsKey m k = true ↔ ∃ p ∈ m, p.1 = k := by
  simp [containsKey, List.any_eq_true, beq_iff_eq]

theorem containsKey_false_iff {α : Type} (m : List (Nat × α)) (k : Nat) :
    containsKey m k = false ↔ ∀ p ∈ m, p.1 ≠ k := by
  rw [← Bool.not_eq_true, containsKey_iff]
  push_neg
  rfl

theorem getKey?_isSome_of_contains {α : Type} (m : List (Nat × α)) (k : Nat)
    (h : containsKey m k = true) : ∃ v, getKey? m k = some v := by
  rcases (containsKey_iff m k).mp h with ⟨p, hp, he⟩
  have hs : (m.find? (fun p => p.1 == k)).isSome = true := by
    rw [List.find?_isSome]
    exact ⟨p, hp, by simp [he]⟩
  rcases Option.isSome_iff_exists.mp hs with ⟨q, hq⟩
  exact ⟨q.2, by simp [getKey?, hq]⟩

theorem imInsert_of_not_contains {α : Type} (m : List (Nat × α)) (k : Nat)
    (v : α) (h : containsKey m k = false) : imInsert m k v = m ++ [(k, v)] := by
  unfold imInsert
  unfold containsKey at h
  rw [if_neg (by simp [h])]

theorem imSwapRemove_fst {α : Type} (m : List (Nat × α)) (k : Nat) :
    (imSwapRemove m k).1 = getKey? m k := by
  induction m with
  | nil => simp [imSwapRemove, getKey?]
  | cons x xs ih =>
    by_cases h : (x.1 == k) = true
    · cases hl : xs.getLast? <;>
        simp [imSwapRemove, h, hl, getKey?, List.find?_cons_of_pos]
    · have h2 : (x.1 == k) = false := by simpa using h
      simp [imSwapRemove, h2, getKey?, List.find?_cons_of_neg, ih]

theorem imSwapRemove_of_not_contains {α : Type} (m : List (Nat × α)) (k : Nat)
    (h : containsKey m k = false) : imSwapRemove m k = (none, m) := by
  induction m with
  | nil => rfl
  | cons x xs ih =>
    rw [containsKey_false_iff] at h
    have hx : (x.1 == k) = false := by
      simp [h x (List.mem_cons_self x xs)]
    have hxs : containsKey xs k = false := by
      rw [containsKey_false_iff]
      exact fun p hp => h p (List.mem_cons_of_mem x hp)
    simp [imSwapRemove, hx, ih hxs]

theorem imSwapRemove_mem {α : Type} (m : List (Nat × α)) (k : Nat) :
    ∀ p ∈ (imSwapRemove m k).2, p ∈ m := by
  induction m with
  | nil => simp [imSwapRemove]
  | cons x xs ih =>
    intro p hp
    by_cases h : (x.1 == k) = true
    · cases hl : xs.getLast? with
      | none => simp [imSwapRemove, h, hl] at hp
      | some last =>
        simp only [imSwapRemove, h, if_true, hl, List.mem_cons] at hp
        rcases hp with rfl | hp
        · exact List.mem_cons_of_mem _ (List.mem_of_mem_getLast? hl)
        · exact List.mem_cons_of_mem _ (List.dropLast_subset xs hp)
    · have h2 : (x.1 == k) = false := by simpa using h
      simp only [imSwapRemove, h2, Bool.false_eq_true, if_false,
        List.mem_cons] at hp
      rcases hp with rfl | hp
      · exact List.mem_cons_self _ _
      · exact List.mem_cons_of_mem _ (ih p hp)

theorem imSwapRemove_not_contains {α : Type} (m : List (Nat × α)) (k : Nat)
    (hnd : (m.map Prod.fst).Nodup) :
    containsKey (imSwapRemove m k).2 k = false := by
  induction m with
  | nil => simp [imSwapRemove, containsKey]
  | cons x xs ih =>
    simp only [List.map_cons, List.nodup_cons] at hnd
    obtain ⟨hx, hxs⟩ := hnd
    have hmem : ∀ p ∈ xs, p.1 ≠ x.1 := by
      intro p hp he
      exact hx (he ▸ List.mem_map_of_mem Prod.fst hp)
    by_cases h : (x.1 == k) = true
    · have hk : x.1 = k := by simpa using h
      cases hl : xs.getLast? with
      | none => simp [imSwapRemove, h, hl, containsKey]
      | some last =>
        simp only [imSwapRemove, h, if_true, hl]
        rw [containsKey_false_iff]
        intro p hp
        rcases List.mem_cons.mp hp with rfl | hp2
        · exact fun he => hmem p (List.mem_of_mem_getLast? hl) (he.trans hk.symm)
        · exact fun he =>
            hmem p (List.dropLast_subset xs hp2) (he.trans hk.symm)
    · have h2 : (x.1 == k) = false := by simpa using h
      simp only [imSwapRemove, h2, Bool.false_eq_true, if_false]
      rw [containsKey_false_iff]
      intro p hp
      rcases List.mem_cons.mp hp with rfl | hp2
      · simpa using h
      · exact (containsKey_false_iff _ _).mp (ih hxs) p hp2

/-! ## C3: the title/author comparator -/

/-- Spec-side predicate: two bytes are equal up to ASCII letter case — they
are identical, or they are the upper- and lower-case forms of one ASCII
letter.  In particular the space byte 32 matches only another space byte. -/
def bytesMatchUpToCase (x y : Nat) : Prop :=
  x = y ∨ (65 ≤ x ∧ x ≤ 90 ∧ y = x + 32) ∨ (65 ≤ y ∧ y ≤ 90 ∧ x = y + 32)

instance (x y : Nat) : Decidable (bytesMatchUpToCase x y) := by
  unfold bytesMatchUpToCase
  infer_instance

theorem byte_match_iff (a b : Nat) :
    (if a == 32 && b == 32 then true
     else (to_ascii_lowercase a == to_ascii_lowercase b)) = true
    ↔ bytesMatchUpToCase a b := by
  unfold to_ascii_lowercase bytesMatchUpToCase
  split_ifs <;> simp_all [Bool.and_eq_true, beq_iff_eq] <;> omega

theorem cmp_iff_forall2 (a b : Bytes) :
    cmp_ignore_case_ascii a b = true ↔ List.Forall₂ bytesMatchUpToCase a b := by
  induction a generalizing b with
  | nil => cases b <;> simp [cmp_ignore_case_ascii]
  | cons x xs ih =>
    cases b with
    | nil => simp [cmp_ignore_case_ascii]
    | cons y ys =>
      rw [show cmp_ignore_case_ascii (x :: xs) (y :: ys)
          = ((if x == 32 && y == 32 then true
              else (to_ascii_lowercase x == to_ascii_lowercase y))
             && cmp_ignore_case_ascii xs ys) from rfl,
        Bool.and_eq_true, byte_match_iff, ih, List.forall₂_cons]

/-- C3: `cmp_ignore_case_ascii a b` is `true` iff `a` and `b` have the same
length and at every byte position the two bytes are equal up to ASCII case;
a space byte matches only another space byte; strings of different length
never match, so a double space does not match a single space
(`"A  B"` vs `"A B"`), while equal-length strings differing only in ASCII
letter case do match (`"Chess"` vs `"cHESS"`). -/
theorem claim_C3 :
    (∀ a b : Bytes, cmp_ignore_case_ascii a b = true ↔
      (a.length = b.length ∧
        ∀ (i : Nat) (h1 : i < a.length) (h2 : i < b.length),
          bytesMatchUpToCase (a.get ⟨i, h1⟩) (b.get ⟨i, h2⟩)))
    ∧ (∀ y : Nat, bytesMatchUpToCase 32 y ↔ y = 32)
    ∧ cmp_ignore_case_ascii [65, 32, 32, 66] [65, 32, 66] = false
    ∧ cmp_ignore_case_ascii [67, 104, 101, 115, 115]
        [99, 72, 69, 83, 83] = true := by
  refine ⟨fun a b => ?_, fun y => ?_, by decide, by decide⟩
  · rw [cmp_iff_forall2, List.forall₂_iff_get]
  · unfold bytesMatchUpToCase
    omega

/-- Witness for C3 at concrete inputs: `"hi"` matches `"HI"`, byte-wise. -/
theorem claim_C3_witness : bytesMatchUpToCase 104 72 := by
  have h := (claim_C3.1 [104, 105] [72, 73]).mp (by decide)
  exact h.2 0 (by decide) (by decide)

/-! ## C1: `remove_book` -/

/-- C1: if some checkout references the book (its status, `DONE` included, is
never consulted), `remove_book` fails with `OutstandingBooksNonReturned`
carrying exactly the uuids of the referencing checkouts and leaves the store
unchanged; otherwise it removes and returns the book when present (the
`Nodup` hypothesis is the key-uniqueness `IndexMap` guarantees structurally)
and fails with `UnknownBook` when absent. -/
theorem claim_C1 (db : Database) (uuid : Nat) :
    ((∃ p ∈ db.checkouts, p.2.book = uuid) →
      ∃ L, remove_book db uuid
          = (db, .error (.OutstandingBooksNonReturned L))
        ∧ ∀ u : Nat, u ∈ L ↔ ∃ p ∈ db.checkouts, p.2.book = uuid ∧ p.2.uuid = u)
    ∧ ((∀ p ∈ db.checkouts, p.2.book ≠ uuid) →
        (db.books.map Prod.fst).Nodup →
        containsKey db.books uuid = true →
        ∃ b, getKey? db.books uuid = some b
          ∧ (remove_book db uuid).2 = .ok b
          ∧ containsKey (remove_book db uuid).1.books uuid = false
          ∧ (remove_book db uuid).1.users = db.users
          ∧ (remove_book db uuid).1.checkouts = db.checkouts)
    ∧ ((∀ p ∈ db.checkouts, p.2.book ≠ uuid) →
        containsKey db.books uuid = false →
        remove_book db uuid = (db, .error (.UnknownBook (encode_uuid uuid)))) := by
  refine ⟨fun hex => ?_, fun hno hnd hc => ?_, fun hno hc => ?_⟩
  · have hany : db.checkouts.any (fun p => p.2.book == uuid) = true := by
      rw [List.any_eq_true]
      rcases hex with ⟨p, hp, he⟩
      exact ⟨p, hp, by simp [he]⟩
    refine ⟨(db.checkouts.filter (fun p => p.2.book == uuid)).map
      (fun p => p.2.uuid), by simp [remove_book, hany], fun u => ?_⟩
    constructor
    · intro hu
      rcases List.mem_map.mp hu with ⟨p, hpf, hpu⟩
      rcases List.mem_filter.mp hpf with ⟨hpmem, hpb⟩
      exact ⟨p, hpmem, by simpa using hpb, hpu⟩
    · rintro ⟨p, hpmem, hpb, hpu⟩
      exact List.mem_map.mpr
        ⟨p, List.mem_filter.mpr ⟨hpmem, by simp [hpb]⟩, hpu⟩
  · have hany : db.checkouts.any (fun p => p.2.book == uuid) = false := by
      rw [List.any_eq_false]
      intro p hp
      simp [hno p hp]
    obtain ⟨b, hb⟩ := getKey?_isSome_of_contains db.books uuid hc
    have hfst : (imSwapRemove db.books uuid).1 = some b := by
      rw [imSwapRemove_fst]
      exact hb
    rcases hsr : imSwapRemove db.books uuid with ⟨f, s⟩
    rw [hsr] at hfst
    simp only at hfst
    subst hfst
    have hrm : remove_book db uuid = ({ db with books := s }, .ok b) := by
      simp [remove_book, hany, hsr]
    refine ⟨b, hb, by rw [hrm], ?_, by rw [hrm], by rw [hrm]⟩
    rw [hrm]
    have := imSwapRemove_not_contains db.books uuid hnd
    rw [hsr] at this
    exact this
  · have hany : db.checkouts.any (fun p => p.2.book == uuid) = false := by
      rw [List.any_eq_false]
      intro p hp
      simp [hno p hp]
    simp [remove_book, hany, imSwapRemove_of_not_contains db.books uuid hc]

/-- Witness for C1: a store with one `Reading` checkout blocks removal with
that checkout's uuid; a checkout-free store removes a present book and
rejects an absent one. -/
theorem claim_C1_witness :
    (remove_book
        ⟨[(134217728, ⟨134217728, [66], [67], 1⟩)],
         [(134217730, ⟨134217730, 134217729, 134217728, .Reading,
            none, none, none⟩)],
         []⟩ 134217728).2
      = .error (.OutstandingBooksNonReturned [134217730])
    ∧ (remove_book ⟨[(134217728, ⟨134217728, [66], [67], 1⟩)], [], []⟩
        134217728).2 = .ok ⟨134217728, [66], [67], 1⟩
    ∧ remove_book Database.newEmpty 134217728
      = (Database.newEmpty, .error (.UnknownBook (encode_uuid 134217728))) := by
  refine ⟨?_, ?_, ?_⟩
  · obtain ⟨L, heq, hL⟩ :=
      (claim_C1
        ⟨[(134217728, ⟨134217728, [66], [67], 1⟩)],
         [(134217730, ⟨134217730, 134217729, 134217728, .Reading,
            none, none, none⟩)],
         []⟩ 134217728).1
        ⟨(134217730, ⟨134217730, 134217729, 134217728, .Reading,
            none, none, none⟩), by simp, rfl⟩
    have hev : remove_book
        ⟨[(134217728, ⟨134217728, [66], [67], 1⟩)],
         [(134217730, ⟨134217730, 134217729, 134217728, .Reading,
            none, none, none⟩)],
         []⟩ 134217728
        = (⟨[(134217728, ⟨134217728, [66], [67], 1⟩)],
            [(134217730, ⟨134217730, 134217729, 134217728, .Reading,
               none, none, none⟩)],
            []⟩,
           .error (.OutstandingBooksNonReturned [134217730])) := rfl
    rw [hev] at heq ⊢
  · obtain ⟨b, hb, hok, -, -, -⟩ :=
      (claim_C1 ⟨[(134217728, ⟨134217728, [66], [67], 1⟩)], [], []⟩
        134217728).2.1
        (by simp) (by simp) (by rfl)
    have hb2 : b = ⟨134217728, [66], [67], 1⟩ := by
      have : getKey? [(134217728, (⟨134217728, [66], [67], 1⟩ : Book))]
          134217728 = some ⟨134217728, [66], [67], 1⟩ := rfl
      rw [this] at hb
      exact (Option.some.inj hb).symm
    rw [hb2] at hok
    exact hok
  · exact (claim_C1 Database.newEmpty 134217728).2.2
      (by simp [Database.newEmpty]) (by rfl)

/-! ## C2: `add_book` -/

/-- C2: `add_book` rejects a duplicate identifier with its encoded text,
then a (title, author) duplicate under the comparator with the new book's
title, leaving the store unchanged in both cases; otherwise it appends the
book at the end of the books map. -/
theorem claim_C2 (db : Database) (book : Book) :
    (containsKey db.books book.uuid = true →
      add_book db book = (db, .error (.AlreadyAdded (encode_uuid book.uuid))))
    ∧ (containsKey db.books book.uuid = false →
       (∃ p ∈ db.books, cmp_ignore_case_ascii p.2.name book.name = true ∧
          cmp_ignore_case_ascii p.2.author book.author = true) →
       add_book db book = (db, .error (.AlreadyAdded book.name)))
    ∧ (containsKey db.books book.uuid = false →
       (∀ p ∈ db.books, ¬(cmp_ignore_case_ascii p.2.name book.name = true ∧
          cmp_ignore_case_ascii p.2.author book.author = true)) →
       add_book db book
         = ({ db with books := db.books ++ [(book.uuid, book)] }, .ok ())) := by
  refine ⟨fun hc => ?_, fun hc hdup => ?_, fun hc hnodup => ?_⟩
  · simp [add_book, hc]
  · have h2 : db.books.any (fun p =>
        cmp_ignore_case_ascii p.2.name book.name
        && cmp_ignore_case_ascii p.2.author book.author) = true := by
      rw [List.any_eq_true]
      rcases hdup with ⟨p, hp, h1, h2⟩
      exact ⟨p, hp, by simp [h1, h2]⟩
    simp [add_book, hc, h2]
  · have h2 : db.books.any (fun p =>
        cmp_ignore_case_ascii p.2.name book.name
        && cmp_ignore_case_ascii p.2.author book.author) = false := by
      rw [List.any_eq_false]
      intro p hp
      have := hnodup p hp
      simp only [Bool.and_eq_true]
      tauto
    simp [add_book, hc, h2, imInsert_of_not_contains db.books book.uuid book hc]

/-- Witness for C2: duplicate uuid, duplicate title/author under the
comparator (`"Chess Basics"`/`"A. Author"` vs `"chess basics"`/
`"a. author"`, as byte lists), and a successful insertion. -/
theorem claim_C2_witness :
    add_book ⟨[(134217728, ⟨134217728, [66], [67], 1⟩)], [], []⟩
      ⟨134217728, [68], [69], 1⟩
      = (⟨[(134217728, ⟨134217728, [66], [67], 1⟩)], [], []⟩,
         .error (.AlreadyAdded (encode_uuid 134217728)))
    ∧ add_book
        ⟨[(134217728,
           ⟨134217728, [99, 104, 101, 115, 115], [97, 46], 1⟩)], [], []⟩
        ⟨134217729, [67, 72, 69, 83, 83], [65, 46], 1⟩
      = (⟨[(134217728,
           ⟨134217728, [99, 104, 101, 115, 115], [97, 46], 1⟩)], [], []⟩,
         .error (.AlreadyAdded [67, 72, 69, 83, 83]))
    ∧ add_book Database.newEmpty ⟨134217728, [66], [67], 1⟩
      = (⟨[(134217728, ⟨134217728, [66], [67], 1⟩)], [], []⟩, .ok ()) := by
  refine ⟨?_, ?_, ?_⟩
  · exact (claim_C2 _ _).1 (by rfl)
  · exact (claim_C2 _ _).2.1 (by rfl)
      ⟨(134217728, ⟨134217728, [99, 104, 101, 115, 115], [97, 46], 1⟩),
        by simp, by rfl, by rfl⟩
  · exact (claim_C2 Database.newEmpty _).2.2 (by rfl)
      (by simp [Database.newEmpty])

/-! ## C5: `new_raw_uuid` -/

theorem new_raw_uuid_spec (db : Database) :
    ∀ rands v, new_raw_uuid db rands = some v →
      2 ^ 27 ≤ v ∧ v < 2 ^ 32 ∧ containsKey db.users v = false ∧
      containsKey db.books v = false ∧ containsKey db.checkouts v = false := by
  intro rands
  induction rands with
  | nil =>
    intro v h
    simp [new_raw_uuid] at h
  | cons r rest ih =>
    intro v h
    simp only [new_raw_uuid] at h
    split_ifs at h with h1 h2
    · exact ih v h
    · obtain rfl : r % 2 ^ 32 = v := Option.some.inj h
      simp only [Bool.and_eq_true, Bool.not_eq_true'] at h2
      exact ⟨by omega, Nat.mod_lt r (by norm_num), h2.1.1, h2.1.2, h2.2⟩
    · exact ih v h

/-- C5: whenever the minting loop returns a value, that value is at least
`2^27` (its top 5 bits are not all zero, so its base-32 form needs no
padding) and is a key of none of the three maps; likewise for the three
class-specific wrappers. -/
theorem claim_C5 (db : Database) (rands : List Nat) (v : Nat) :
    (new_raw_uuid db rands = some v →
      2 ^ 27 ≤ v ∧ containsKey db.books v = false ∧
      containsKey db.users v = false ∧ containsKey db.checkouts v = false)
    ∧ (new_book_uuid db rands = some v →
      2 ^ 27 ≤ v ∧ containsKey db.books v = false ∧
      containsKey db.users v = false ∧ containsKey db.checkouts v = false)
    ∧ (new_user_uuid db rands = some v →
      2 ^ 27 ≤ v ∧ containsKey db.books v = false ∧
      containsKey db.users v = false ∧ containsKey db.checkouts v = false)
    ∧ (new_checkout_uuid db rands = some v →
      2 ^ 27 ≤ v ∧ containsKey db.books v = false ∧
      containsKey db.users v = false ∧ containsKey db.checkouts v = false) := by
  have h : new_raw_uuid db rands = some v →
      2 ^ 27 ≤ v ∧ containsKey db.books v = false ∧
      containsKey db.users v = false ∧ containsKey db.checkouts v = false := by
    intro h
    obtain ⟨h1, -, h3, h4, h5⟩ := new_raw_uuid_spec db rands v h
    exact ⟨h1, h4, h3, h5⟩
  exact ⟨h, h, h, h⟩

/-- Witness for C5: on an empty store, a draw below `2^27` is skipped and
the next draw is returned. -/
theorem claim_C5_witness :
    2 ^ 27 ≤ 134217731 ∧
      containsKey Database.newEmpty.books 134217731 = false ∧
      containsKey Database.newEmpty.users 134217731 = false ∧
      containsKey Database.newEmpty.checkouts 134217731 = false :=
  (claim_C5 Database.newEmpty [5, 134217731] 134217731).1 (by rfl)

/-! ## C6: mutual uniqueness is preserved -/

/-- The `add` command of `main.rs`: mint a fresh book uuid, then `add_book`
a quantity-1 book with it (the store is unchanged when the draw list is
exhausted, which the real unbounded loop never is). -/
def add_book_command (db : Database) (rands : List Nat)
    (name author : Bytes) : Database :=
  match new_book_uuid db rands with
  | none => db
  | some u => (add_book db ⟨u, name, author, 1⟩).1

/-- The result of the `remove` command's store mutation. -/
def remove_book_command (db : Database) (uuid : Nat) : Database :=
  (remove_book db uuid).1

/-- Modelled from the spec: user creation ("Created on first interaction",
§3) has no implementation in the source — `main.rs` has no user-creating
command — so per §4.1/§4.2 a fresh identifier is minted with the store's
minting operation and the user inserted into the users map. -/
def create_user_command (db : Database) (rands : List Nat)
    (discord_id read_name : Bytes) : Database :=
  match new_user_uuid db rands with
  | none => db
  | some u =>
    { db with users := imInsert db.users u ⟨discord_id, read_name, u⟩ }

/-- Modelled from the spec: a checkout is created in status `PreTransact`
with `due_date` and both approvals unset (§4.3); the `checkout` command in
`main.rs` is a TODO stub. -/
def new_checkout (uuid rentee book : Nat) : CheckoutInstance :=
  ⟨uuid, rentee, book, .PreTransact, none, none, none⟩

/-- Modelled from the spec: checkout creation mints a fresh identifier and
inserts the new `PreTransact` checkout; the `checkout` command in `main.rs`
is a TODO stub. -/
def create_checkout_command (db : Database) (rands : List Nat)
    (rentee book : Nat) : Database :=
  match new_checkout_uuid db rands with
  | none => db
  | some u =>
    { db with checkouts := imInsert db.checkouts u (new_checkout u rentee book) }

theorem mutualUnique_iff (db : Database) :
    mutualUnique db = true ↔
      (∀ p ∈ db.books, containsKey db.users p.1 = false ∧
        containsKey db.checkouts p.1 = false)
      ∧ (∀ p ∈ db.users, containsKey db.checkouts p.1 = false) := by
  simp only [mutualUnique, Bool.and_eq_true, List.all_eq_true,
    Bool.not_eq_true']

theorem containsKey_append_single {α : Type} (m : List (Nat × α)) (u : Nat)
    (v : α) (k : Nat) :
    containsKey (m ++ [(u, v)]) k = (containsKey m k || (u == k)) := by
  simp [containsKey, List.any_append]

/-- C6: starting from a store in which no identifier is a key of more than
one of the three maps, each mutating operation — the `add` command (mint +
`add_book`), `remove_book`, and the (spec-modelled) creation of users and
checkouts — yields a store with the same property. -/
theorem claim_C6 (db : Database) (hmu : mutualUnique db = true) :
    (∀ rands name author,
      mutualUnique (add_book_command db rands name author) = true)
    ∧ (∀ uuid, mutualUnique (remove_book_command db uuid) = true)
    ∧ (∀ rands discord_id read_name,
      mutualUnique (create_user_command db rands discord_id read_name) = true)
    ∧ (∀ rands rentee book,
      mutualUnique (create_checkout_command db rands rentee book) = true) := by
  obtain ⟨hbk, hus⟩ := (mutualUnique_iff db).mp hmu
  refine ⟨fun rands name author => ?_, fun uuid => ?_,
    fun rands discord_id read_name => ?_, fun rands rentee book => ?_⟩
  · cases hm : new_book_uuid db rands with
    | none => simpa [add_book_command, hm] using hmu
    | some u =>
      obtain ⟨-, -, hu1, hu2, hu3⟩ := new_raw_uuid_spec db rands u hm
      simp only [add_book_command, hm]
      unfold add_book
      rw [if_neg (by simp [hu2])]
      split_ifs with h2
      · exact hmu
      · rw [imInsert_of_not_contains db.books u _ hu2]
        rw [mutualUnique_iff]
        refine ⟨fun p hp => ?_, hus⟩
        rcases List.mem_append.mp hp with hp2 | hp2
        · exact hbk p hp2
        · have : p = (u, ⟨u, name, author, 1⟩) := by simpa using hp2
          rw [this]
          exact ⟨hu1, hu3⟩
  · unfold remove_book_command remove_book
    split_ifs with h1
    · exact hmu
    · cases hsr : imSwapRemove db.books uuid with
      | mk f s =>
        cases f with
        | none => exact hmu
        | some b =>
          rw [mutualUnique_iff]
          refine ⟨fun p hp => ?_, hus⟩
          have hps : p ∈ s := hp
          have : p ∈ db.books := by
            have := imSwapRemove_mem db.books uuid
            rw [hsr] at this
            exact this p hps
          exact hbk p this
  · cases hm : new_user_uuid db rands with
    | none => simpa [create_user_command, hm] using hmu
    | some u =>
      obtain ⟨-, -, hu1, hu2, hu3⟩ := new_raw_uuid_spec db rands u hm
      simp only [create_user_command, hm]
      rw [imInsert_of_not_contains db.users u _ hu1]
      rw [mutualUnique_iff]
      have hne : ∀ p ∈ db.books, p.1 ≠ u := by
        intro p hp he
        rw [containsKey_false_iff] at hu2
        exact hu2 p hp he
      refine ⟨fun p hp => ?_, fun p hp => ?_⟩
      · rw [containsKey_append_single]
        have h1 := (hbk p hp).1
        have h2 : (u == p.1) = false := by
          simp only [beq_eq_false_iff_ne]
          exact fun he => hne p hp he.symm
        simp [h1, h2, (hbk p hp).2]
      · rcases List.mem_append.mp hp with hp2 | hp2
        · exact hus p hp2
        · have : p = (u, ⟨discord_id, read_name, u⟩) := by simpa using hp2
          rw [this]
          exact hu3
  · cases hm : new_checkout_uuid db rands with
    | none => simpa [create_checkout_command, hm] using hmu
    | some u =>
      obtain ⟨-, -, hu1, hu2, hu3⟩ := new_raw_uuid_spec db rands u hm
      simp only [create_checkout_command, hm]
      rw [imInsert_of_not_contains db.checkouts u _ hu3]
      rw [mutualUnique_iff]
      have hne : ∀ p ∈ db.books, p.1 ≠ u := by
        intro p hp he
        rw [containsKey_false_iff] at hu2
        exact hu2 p hp he
      have hneu : ∀ p ∈ db.users, p.1 ≠ u := by
        intro p hp he
        rw [containsKey_false_iff] at hu1
        exact hu1 p hp he
      refine ⟨fun p hp => ?_, fun p hp => ?_⟩
      · rw [containsKey_append_single]
        have h2 : (u == p.1) = false := by
          simp only [beq_eq_false_iff_ne]
          exact fun he => hne p hp he.symm
        simp [(hbk p hp).1, (hbk p hp).2, h2]
      · rw [containsKey_append_single]
        have h2 : (u == p.1) = false := by
          simp only [beq_eq_false_iff_ne]
          exact fun he => hneu p hp he.symm
        simp [hus p hp, h2]

/-- Witness for C6: the four operations applied to a store holding one book,
one user and one checkout with distinct identifiers. -/
theorem claim_C6_witness :
    mutualUnique (add_book_command
      ⟨[(134217728, ⟨134217728, [66], [67], 1⟩)],
       [(134217730, ⟨134217730, 134217729, 134217728, .Reading,
          none, none, none⟩)],
       [(134217729, ⟨[97], [98], 134217729⟩)]⟩
      [134217731] [68] [69]) = true
    ∧ mutualUnique (remove_book_command
      ⟨[(134217728, ⟨134217728, [66], [67], 1⟩)],
       [(134217730, ⟨134217730, 134217729, 134217728, .Reading,
          none, none, none⟩)],
       [(134217729, ⟨[97], [98], 134217729⟩)]⟩ 134217728) = true
    ∧ mutualUnique (create_user_command
      ⟨[(134217728, ⟨134217728, [66], [67], 1⟩)],
       [(134217730, ⟨134217730, 134217729, 134217728, .Reading,
          none, none, none⟩)],
       [(134217729, ⟨[97], [98], 134217729⟩)]⟩
      [134217731] [97] [98]) = true
    ∧ mutualUnique (create_checkout_command
      ⟨[(134217728, ⟨134217728, [66], [67], 1⟩)],
       [(134217730, ⟨134217730, 134217729, 134217728, .Reading,
          none, none, none⟩)],
       [(134217729, ⟨[97], [98], 134217729⟩)]⟩
      [134217731] 134217729 134217728) = true := by
  obtain ⟨h1, h2, h3, h4⟩ := claim_C6
    ⟨[(134217728, ⟨134217728, [66], [67], 1⟩)],
     [(134217730, ⟨134217730, 134217729, 134217728, .Reading,
        none, none, none⟩)],
     [(134217729, ⟨[97], [98], 134217729⟩)]⟩ (by rfl)
  exact ⟨h1 [134217731] [68] [69], h2 134217728,
    h3 [134217731] [97] [98], h4 [134217731] 134217729 134217728⟩

/-! ## C4: encode/decode round-trip -/

theorem b32_digit_roundtrip :
    ∀ d, d < 32 → List.findIdx?
      (fun a => a == base32_alphabet[d]?.getD 0) base32_alphabet = some d := by
  decide

theorem b32_roundtrip (id : Nat) (h32 : id < 2 ^ 32) :
    b32_decode4 (encode_uuid id) = some id := by
  have hd : ∀ m : Nat, 0 < m → id * 8 / m % 32 < 32 :=
    fun m _ => Nat.mod_lt _ (by norm_num)
  have e0 := b32_digit_roundtrip (id * 8 / 1073741824 % 32) (hd _ (by norm_num))
  have e1 := b32_digit_roundtrip (id * 8 / 33554432 % 32) (hd _ (by norm_num))
  have e2 := b32_digit_roundtrip (id * 8 / 1048576 % 32) (hd _ (by norm_num))
  have e3 := b32_digit_roundtrip (id * 8 / 32768 % 32) (hd _ (by norm_num))
  have e4 := b32_digit_roundtrip (id * 8 / 1024 % 32) (hd _ (by norm_num))
  have e5 := b32_digit_roundtrip (id * 8 / 32 % 32) (hd _ (by norm_num))
  have e6 := b32_digit_roundtrip (id * 8 % 32) (Nat.mod_lt _ (by norm_num))
  unfold encode_uuid b32_decode4
  simp only [show List.range 7 = [0, 1, 2, 3, 4, 5, 6] from rfl,
    List.map_cons, List.map_nil]
  norm_num
  simp only [List.mapM.loop, e0, e1, e2, e3, e4, e5, e6, Option.bind_eq_bind,
    Option.some_bind, Option.pure_def, List.reverse_cons, List.reverse_nil,
    List.nil_append, List.cons_append, List.foldl_cons, List.foldl_nil]
  split_ifs with h
  · exact congrArg some (by omega)
  · exact absurd (by omega) h

theorem mutualUnique_books_not_users (db : Database)
    (hmu : mutualUnique db = true) (v : Nat)
    (hb : containsKey db.books v = true) : containsKey db.users v = false := by
  obtain ⟨hbk, -⟩ := (mutualUnique_iff db).mp hmu
  rcases (containsKey_iff _ _).mp hb with ⟨p, hp, rfl⟩
  exact (hbk p hp).1

theorem mutualUnique_books_not_checkouts (db : Database)
    (hmu : mutualUnique db = true) (v : Nat)
    (hb : containsKey db.books v = true) :
    containsKey db.checkouts v = false := by
  obtain ⟨hbk, -⟩ := (mutualUnique_iff db).mp hmu
  rcases (containsKey_iff _ _).mp hb with ⟨p, hp, rfl⟩
  exact (hbk p hp).2

theorem mutualUnique_users_not_checkouts (db : Database)
    (hmu : mutualUnique db = true) (v : Nat)
    (hu : containsKey db.users v = true) :
    containsKey db.checkouts v = false := by
  obtain ⟨-, hus⟩ := (mutualUnique_iff db).mp hmu
  rcases (containsKey_iff _ _).mp hu with ⟨p, hp, rfl⟩
  exact hus p hp

theorem mutualUnique_checkouts_not_users (db : Database)
    (hmu : mutualUnique db = true) (v : Nat)
    (hc : containsKey db.checkouts v = true) :
    containsKey db.users v = false := by
  cases h : containsKey db.users v with
  | false => rfl
  | true =>
    rw [mutualUnique_users_not_checkouts db hmu v h] at hc
    cases hc

theorem mutualUnique_checkouts_not_books (db : Database)
    (hmu : mutualUnique db = true) (v : Nat)
    (hc : containsKey db.checkouts v = true) :
    containsKey db.books v = false := by
  cases h : containsKey db.books v with
  | false => rfl
  | true =>
    rw [mutualUnique_books_not_checkouts db hmu v h] at hc
    cases hc

/-- C4: for an identifier in `[2^27, 2^32)` that is a key of one of the
three maps of a store satisfying the §3 uniqueness invariant, decoding the
encoded text succeeds (never `InvalidEncoding`) and returns the identifier
together with the class of the map containing it. -/
theorem claim_C4 (db : Database) (id : Nat) (_h27 : 2 ^ 27 ≤ id)
    (h32 : id < 2 ^ 32) (hmu : mutualUnique db = true) :
    (containsKey db.users id = true →
      decode_raw db (encode_uuid id) = .ok (id, .User))
    ∧ (containsKey db.books id = true →
      decode_raw db (encode_uuid id) = .ok (id, .Book))
    ∧ (containsKey db.checkouts id = true →
      decode_raw db (encode_uuid id) = .ok (id, .Checkout)) := by
  have hrt := b32_roundtrip id h32
  refine ⟨fun hu => ?_, fun hb => ?_, fun hc => ?_⟩
  · simp [decode_raw, hrt, hu]
  · have hnu := mutualUnique_books_not_users db hmu id hb
    simp [decode_raw, hrt, hnu, hb]
  · have hnu := mutualUnique_checkouts_not_users db hmu id hc
    have hnb := mutualUnique_checkouts_not_books db hmu id hc
    simp [decode_raw, hrt, hnu, hnb, hc]

/-- Witness for C4: the identifier `2^27` stored as a book key decodes from
its own encoding to itself with class `Book`. -/
theorem claim_C4_witness :
    decode_raw ⟨[(134217728, ⟨134217728, [66], [67], 1⟩)], [], []⟩
      (encode_uuid 134217728) = .ok (134217728, .Book) :=
  (claim_C4 ⟨[(134217728, ⟨134217728, [66], [67], 1⟩)], [], []⟩ 134217728
    (by norm_num) (by norm_num) (by rfl)).2.1 (by rfl)

/-! ## C8: the class-restricted decoders -/

/-- C8: on a store satisfying the §3 uniqueness invariant, each
class-restricted decoder returns `InvalidEncoding` exactly on text that is
not valid unpadded base-32 of 4 bytes, `NotFound` when the decoded value is
a key of no map, a class-specific mismatch error when it is a key of a map
of the wrong class, and `ok` exactly when it is a key of the map of the
right class. -/
theorem claim_C8 (db : Database) (s : Bytes) (hmu : mutualUnique db = true) :
    (b32_decode4 s = none →
      decode_book_uuid db s = .error .InvalidEncoding
      ∧ decode_user_uuid db s = .error .InvalidEncoding
      ∧ decode_checkout_uuid db s = .error .InvalidEncoding)
    ∧ (∀ v, b32_decode4 s = some v →
        containsKey db.users v = false → containsKey db.books v = false →
        containsKey db.checkouts v = false →
        decode_book_uuid db s = .error .NotFound
        ∧ decode_user_uuid db s = .error .NotFound
        ∧ decode_checkout_uuid db s = .error .NotFound)
    ∧ (∀ v, b32_decode4 s = some v → containsKey db.users v = true →
        decode_user_uuid db s = .ok v
        ∧ decode_book_uuid db s = .error .MismatchIsUserUuid
        ∧ decode_checkout_uuid db s = .error .MismatchIsUserUuid)
    ∧ (∀ v, b32_decode4 s = some v → containsKey db.books v = true →
        decode_book_uuid db s = .ok v
        ∧ decode_user_uuid db s = .error .MismatchIsBookUuid
        ∧ decode_checkout_uuid db s = .error .MismatchIsBookUuid)
    ∧ (∀ v, b32_decode4 s = some v → containsKey db.checkouts v = true →
        decode_checkout_uuid db s = .ok v
        ∧ decode_user_uuid db s = .error .MismatchIsCheckoutUuid
        ∧ decode_book_uuid db s = .error .MismatchIsCheckoutUuid) := by
  refine ⟨fun hinv => ?_, fun v hv h1 h2 h3 => ?_, fun v hv hu => ?_,
    fun v hv hb => ?_, fun v hv hc => ?_⟩
  · refine ⟨?_, ?_, ?_⟩ <;>
      simp [decode_book_uuid, decode_user_uuid, decode_checkout_uuid,
        decode_raw, hinv]
  · refine ⟨?_, ?_, ?_⟩ <;>
      simp [decode_book_uuid, decode_user_uuid, decode_checkout_uuid,
        decode_raw, hv, h1, h2, h3]
  · refine ⟨?_, ?_, ?_⟩ <;>
      simp [decode_book_uuid, decode_user_uuid, decode_checkout_uuid,
        decode_raw, hv, hu, uuid_type_to_mismatch_error]
  · have hnu := mutualUnique_books_not_users db hmu v hb
    refine ⟨?_, ?_, ?_⟩ <;>
      simp [decode_book_uuid, decode_user_uuid, decode_checkout_uuid,
        decode_raw, hv, hb, hnu, uuid_type_to_mismatch_error]
  · have hnu := mutualUnique_checkouts_not_users db hmu v hc
    have hnb := mutualUnique_checkouts_not_books db hmu v hc
    refine ⟨?_, ?_, ?_⟩ <;>
      simp [decode_book_uuid, decode_user_uuid, decode_checkout_uuid,
        decode_raw, hv, hc, hnu, hnb, uuid_type_to_mismatch_error]

/-- Witness for C8: on a store holding one book, malformed text gives
`InvalidEncoding`, the book's code gives `ok` from the book decoder and a
`MismatchIsBookUuid` from the user decoder. -/
theorem claim_C8_witness :
    decode_book_uuid ⟨[(134217728, ⟨134217728, [66], [67], 1⟩)], [], []⟩ []
      = .error .InvalidEncoding
    ∧ decode_book_uuid ⟨[(134217728, ⟨134217728, [66], [67], 1⟩)], [], []⟩
        (encode_uuid 134217728) = .ok 134217728
    ∧ decode_user_uuid ⟨[(134217728, ⟨134217728, [66], [67], 1⟩)], [], []⟩
        (encode_uuid 134217728) = .error .MismatchIsBookUuid := by
  obtain ⟨h1, -, -⟩ :=
    (claim_C8 ⟨[(134217728, ⟨134217728, [66], [67], 1⟩)], [], []⟩ []
      (by rfl)).1 (by rfl)
  obtain ⟨h2, h3, -⟩ :=
    (claim_C8 ⟨[(134217728, ⟨134217728, [66], [67], 1⟩)], [], []⟩
      (encode_uuid 134217728) (by rfl)).2.2.2.1 134217728 (by rfl) (by rfl)
  exact ⟨h1, h2, h3⟩

/-! ## C7: the checkout lifecycle (modelled from the spec) -/

/-- The spec's `IllegalTransition` error kind (§7). -/
inductive TransitionError where
  | IllegalTransition
deriving DecidableEq, Repr

/-- Modelled from the spec: the three lifecycle transitions of §4.3 — the
`checkout`/`return` commands and the approval reactions have no
implementation in the source (`main.rs` has TODO stubs). -/
inductive CheckoutAction where
  | ApproveHandout (approver : Nat) (is_officer : Bool) (now : TimeType)
  | SelfReport (actor : Nat)
  | ApproveReturn (approver : Nat) (is_officer : Bool) (now : TimeType)

/-- The 7-day loan period (§4.3, policy default), in seconds. -/
def loan_period : Int := 7 * 24 * 60 * 60

/-- Modelled from the spec: one lifecycle step of §4.3.  Handout approval
requires the exact state `PreTransact` and approver authority, sets
`checkout_approval` and fixes `due_date = now + loan period`; self-report
requires `Reading` and the renter; return approval requires
`ReturnVerifyNeeded` and approver authority.  Anything else is an
`IllegalTransition` and mutates nothing. -/
def checkout_step (c : CheckoutInstance) :
    CheckoutAction → Except TransitionError CheckoutInstance
  | .ApproveHandout approver is_officer now =>
    if c.status = .PreTransact ∧ is_officer = true then
      .ok { c with
            status := .Reading
            due_date := some (now + loan_period)
            checkout_approval := some ⟨approver, now⟩ }
    else .error .IllegalTransition
  | .SelfReport actor =>
    if c.status = .Reading ∧ actor = c.rentee then
      .ok { c with status := .ReturnVerifyNeeded }
    else .error .IllegalTransition
  | .ApproveReturn approver is_officer now =>
    if c.status = .ReturnVerifyNeeded ∧ is_officer = true then
      .ok { c with
            status := .DONE
            checkin_approval := some ⟨approver, now⟩ }
    else .error .IllegalTransition

/-- Modelled from the spec: applying a lifecycle step to the store replaces
the checkout only when the step succeeds. -/
def apply_checkout_action (db : Database) (cid : Nat) (a : CheckoutAction) :
    Database :=
  match getKey? db.checkouts cid with
  | none => db
  | some c =>
    match checkout_step c a with
    | .error _ => db
    | .ok c2 => { db with checkouts := imInsert db.checkouts cid c2 }

/-- The position of a status in the forward order
`PreTransact → Reading → ReturnVerifyNeeded → DONE`. -/
def statusIdx : CheckoutStatus → Nat
  | .PreTransact => 0
  | .Reading => 1
  | .ReturnVerifyNeeded => 2
  | .DONE => 3

/-- C7: checkouts are created in `PreTransact` with nothing else set; every
successful step advances the status by exactly one position in the forward
order (so no back-transitions, no skipping, and no step out of `DONE`); a
step from the wrong state or without the required authority fails with
`IllegalTransition` and leaves the store unchanged; handout approval sets
`due_date` to the approval time plus the 7-day loan period. -/
theorem claim_C7 :
    (∀ u r b, (new_checkout u r b).status = .PreTransact
      ∧ (new_checkout u r b).due_date = none
      ∧ (new_checkout u r b).checkout_approval = none
      ∧ (new_checkout u r b).checkin_approval = none)
    ∧ (∀ c a c', checkout_step c a = .ok c' →
        statusIdx c'.status = statusIdx c.status + 1)
    ∧ (∀ c approver is_officer now,
        c.status ≠ .PreTransact ∨ is_officer = false →
        checkout_step c (.ApproveHandout approver is_officer now)
          = .error .IllegalTransition)
    ∧ (∀ c actor, c.status ≠ .Reading ∨ actor ≠ c.rentee →
        checkout_step c (.SelfReport actor) = .error .IllegalTransition)
    ∧ (∀ c approver is_officer now,
        c.status ≠ .ReturnVerifyNeeded ∨ is_officer = false →
        checkout_step c (.ApproveReturn approver is_officer now)
          = .error .IllegalTransition)
    ∧ (∀ db cid a,
        (∀ c, getKey? db.checkouts cid = some c →
          checkout_step c a = .error .IllegalTransition) →
        apply_checkout_action db cid a = db)
    ∧ (∀ c approver now, c.status = .PreTransact →
        checkout_step c (.ApproveHandout approver true now)
          = .ok { c with
                  status := .Reading
                  due_date := some (now + 7 * 24 * 60 * 60)
                  checkout_approval := some ⟨approver, now⟩ }) := by
  refine ⟨fun u r b => ⟨rfl, rfl, rfl, rfl⟩, ?_, ?_, ?_, ?_, ?_, ?_⟩
  · intro c a c' h
    cases a with
    | ApproveHandout approver is_officer now =>
      simp only [checkout_step] at h
      split_ifs at h with hc
      · simp only [Except.ok.injEq] at h
        subst h
        rw [hc.1]
        rfl
    | SelfReport actor =>
      simp only [checkout_step] at h
      split_ifs at h with hc
      · simp only [Except.ok.injEq] at h
        subst h
        rw [hc.1]
        rfl
    | ApproveReturn approver is_officer now =>
      simp only [checkout_step] at h
      split_ifs at h with hc
      · simp only [Except.ok.injEq] at h
        subst h
        rw [hc.1]
        rfl
  · intro c approver is_officer now hbad
    simp only [checkout_step]
    split_ifs with hc
    · rcases hbad with hb | hb
      · exact absurd hc.1 hb
      · exact absurd hc.2 (by simp [hb])
    · rfl
  · intro c actor hbad
    simp only [checkout_step]
    split_ifs with hc
    · rcases hbad with hb | hb
      · exact absurd hc.1 hb
      · exact absurd hc.2 hb
    · rfl
  · intro c approver is_officer now hbad
    simp only [checkout_step]
    split_ifs with hc
    · rcases hbad with hb | hb
      · exact absurd hc.1 hb
      · exact absurd hc.2 (by simp [hb])
    · rfl
  · intro db cid a h
    cases hg : getKey? db.checkouts cid with
    | none => simp [apply_checkout_action, hg]
    | some c => simp [apply_checkout_action, hg, h c hg]
  · intro c approver now hpre
    simp only [checkout_step]
    rw [if_pos ⟨hpre, trivial⟩]
    rfl

/-- Witness for C7: a freshly created checkout, a successful handout
approval with its due date, a refused premature return approval, and an
unchanged store on an illegal step. -/
theorem claim_C7_witness :
    (new_checkout 134217730 134217729 134217728).status
      = CheckoutStatus.PreTransact
    ∧ checkout_step (new_checkout 134217730 134217729 134217728)
        (.ApproveHandout 134217731 true 1000)
      = .ok { new_checkout 134217730 134217729 134217728 with
              status := .Reading
              due_date := some (1000 + 7 * 24 * 60 * 60)
              checkout_approval := some ⟨134217731, 1000⟩ }
    ∧ checkout_step (new_checkout 134217730 134217729 134217728)
        (.ApproveReturn 134217731 true 1000) = .error .IllegalTransition
    ∧ apply_checkout_action Database.newEmpty 134217730
        (.SelfReport 134217729) = Database.newEmpty := by
  obtain ⟨h1, -, h3, h4, h5, h6, h7⟩ := claim_C7
  refine ⟨(h1 134217730 134217729 134217728).1, ?_, ?_, ?_⟩
  · exact h7 (new_checkout 134217730 134217729 134217728) 134217731 1000 rfl
  · exact h5 (new_checkout 134217730 134217729 134217728) 134217731 true 1000
      (Or.inl (by simp [new_checkout]))
  · exact h6 Database.newEmpty 134217730 (.SelfReport 134217729)
      (fun c hc => by simp [getKey?, Database.newEmpty] at hc)

/-! ## C9: `load` -/

/-- C9: a failed snapshot read yields "no prior state" (`some none`) and the
caller then starts from the empty store; a successful read whose content
fails to deserialize panics (the outer `none`); a successful read of
well-formed content yields the deserialized store. -/
theorem claim_C9 (deserialize : Bytes → Option Database) (data : Bytes)
    (db : Database) :
    load none deserialize = some none
    ∧ init_database none = Database.newEmpty
    ∧ Database.newEmpty.books = [] ∧ Database.newEmpty.users = []
    ∧ Database.newEmpty.checkouts = []
    ∧ (deserialize data = none → load (some data) deserialize = none)
    ∧ (deserialize data = some db →
        load (some data) deserialize = some (some db)) := by
  refine ⟨rfl, rfl, rfl, rfl, rfl, fun h => ?_, fun h => ?_⟩
  · simp [load, h]
  · simp [load, h]

/-- Witness for C9: a deserializer that always fails makes `load` panic on a
successfully read file, while a failed read still yields no prior state. -/
theorem claim_C9_witness :
    load (some [0]) (fun _ => none) = none
    ∧ load none (fun _ => none) = some none := by
  obtain ⟨h1, -, -, -, -, h6, -⟩ :=
    claim_C9 (fun _ => none) [0] Database.newEmpty
  exact ⟨h6 rfl, h1⟩

/-! ## C10: the `unreachable!()` branches -/

theorem decode_raw_book_contains (db : Database) (s : Bytes) (v : Nat)
    (h : decode_raw db s = .ok (v, .Book)) :
    containsKey db.books v = true := by
  unfold decode_raw at h
  cases hb : b32_decode4 s with
  | none => rw [hb] at h; simp at h
  | some w =>
    rw [hb] at h
    by_cases h1 : containsKey db.users w = true
    · simp [h1] at h
    · by_cases h2 : containsKey db.books w = true
      · simp [h1, h2] at h
        rw [← h]
        exact h2
      · by_cases h3 : containsKey db.checkouts w = true
        · simp [h1, h2, h3] at h
        · simp [h1, h2, h3] at h

theorem decode_book_uuid_ok (db : Database) (s : Bytes) (u : Nat)
    (h : decode_book_uuid db s = .ok u) :
    decode_raw db s = .ok (u, .Book) := by
  unfold decode_book_uuid at h
  cases hr : decode_raw db s with
  | error e => rw [hr] at h; simp at h
  | ok p =>
    obtain ⟨pv, pt⟩ := p
    rw [hr] at h
    by_cases ht : pt = UuidType.Book
    · subst ht
      simp at h
      rw [h]
    · simp [ht] at h

/-- C10: the `unreachable!()` branches of `get_book_from_input` and
`get_book_from_input_mut` are dead code: a successful `decode_book_uuid`
always returns a key of the books map, the title-scan fallback always
selects a stored book's uuid (which, by the key coherence `IndexMap`
insertion maintains, is its key), so the final lookup succeeds and both
functions are total, returning `some` of an optional book and never
panicking. -/
theorem claim_C10 (db : Database) (input : Bytes) :
    (∀ u, decode_book_uuid db input = .ok u →
      containsKey db.books u = true)
    ∧ (booksKeyCoherent db →
        get_book_from_input db input ≠ none
        ∧ get_book_from_input_mut db input ≠ none) := by
  have hdec : ∀ u, decode_book_uuid db input = .ok u →
      containsKey db.books u = true := fun u h =>
    decode_raw_book_contains db input u (decode_book_uuid_ok db input u h)
  refine ⟨hdec, fun hcoh => ?_⟩
  have hsame : get_book_from_input_mut db input
      = get_book_from_input db input := rfl
  have hmain : get_book_from_input db input ≠ none := by
    unfold get_book_from_input
    cases hd : decode_book_uuid db input with
    | ok u =>
      obtain ⟨b, hb⟩ := getKey?_isSome_of_contains db.books u (hdec u hd)
      simp [hd, hb]
    | error e =>
      cases hf : db.books.find?
          (fun p => cmp_ignore_case_ascii p.2.name input) with
      | none => simp [hd, hf]
      | some p =>
        have hp : p ∈ db.books := List.mem_of_find?_eq_some hf
        have hck : containsKey db.books p.2.uuid = true := by
          rw [hcoh p hp]
          exact (containsKey_iff _ _).mpr ⟨p, hp, rfl⟩
        obtain ⟨b, hb⟩ := getKey?_isSome_of_contains db.books p.2.uuid hck
        simp [hd, hf, hb]
  exact ⟨hmain, hsame ▸ hmain⟩

/-- Witness for C10: both lookups on a store with one book, once by its
encoded identifier and once showing a decode success lands in the books
map. -/
theorem claim_C10_witness :
    containsKey
      (⟨[(134217728, ⟨134217728, [66], [67], 1⟩)], [], []⟩ : Database).books
      134217728 = true
    ∧ get_book_from_input
        ⟨[(134217728, ⟨134217728, [66], [67], 1⟩)], [], []⟩
        (encode_uuid 134217728) ≠ none
    ∧ get_book_from_input_mut
        ⟨[(134217728, ⟨134217728, [66], [67], 1⟩)], [], []⟩
        (encode_uuid 134217728) ≠ none := by
  have h := claim_C10 ⟨[(134217728, ⟨134217728, [66], [67], 1⟩)], [], []⟩
    (encode_uuid 134217728)
  have hcoh : booksKeyCoherent
      ⟨[(134217728, ⟨134217728, [66], [67], 1⟩)], [], []⟩ := by
    intro p hp
    rcases List.mem_singleton.mp hp with rfl
    rfl
  obtain ⟨h2, h3⟩ := h.2 hcoh
  exact ⟨h.1 134217728 (by rfl), h2, h3⟩

end ChessBot
